import Mathlib

/-!
Verification of the dlpyc900 DLPC900 DMD-controller protocol layer
(src/dlpyc900/dlpyc900.py) against its natural-language specification.

All definitions below are shallow embeddings of the Python source.  Machine
integers are modelled as `Nat` (all quantities in the source are
non-negative), Python lists as `List Nat`, Python binary strings (from
`format(a, '0Nb')`) as `List Char`, and the stream of USB writes performed by
a method as an explicit list of reports / trace of actions.
-/

set_option maxRecDepth 4000

/-! ## Bit-string helpers (`number_to_bits`, `bits_to_bytes` in the source) -/

/-- The numeric value of one binary digit character. -/
def bitVal (c : Char) : Nat := if c = '1' then 1 else 0

/-- `int(bits, 2)` on a big-endian string of binary digit characters. -/
def bitsToNat (l : List Char) : Nat := l.foldl (fun acc c => 2 * acc + bitVal c) 0

/-- Embedding of `number_to_bits(a, bitlen)` = `format(a, '0{bitlen}b')`:
the big-endian binary digits of `a`, left-padded with '0' to at least
`bitlen` characters (longer when `a` needs more digits, exactly as in
Python). `Nat.toDigits 2` produces the same minimal big-endian digit string
as Python's `format(a, 'b')`. -/
def number_to_bits (a : Nat) (bitlen : Nat) : List Char :=
  let s := Nat.toDigits 2 a
  List.replicate (bitlen - s.length) '0' ++ s

/-- Splitting a digit string into chunks of 8 characters, as the
comprehension `[bits[i:i+8] for i in range(0, len(bits), 8)]` does
(the final chunk may be shorter). -/
def chunkBits : List Char → List (List Char)
  | [] => []
  | a :: b :: c :: d :: e :: f :: g :: h :: rest =>
      [a, b, c, d, e, f, g, h] :: chunkBits rest
  | l => [l]

/-- Embedding of `bits_to_bytes(bits)`: parse each 8-character chunk as a
binary number, then reverse the list of bytes. -/
def bits_to_bytes (bits : List Char) : List Nat :=
  ((chunkBits bits).map bitsToNat).reverse

theorem chunkBits_cons8 (a b c d e f g h : Char) (rest : List Char) :
    chunkBits (a :: b :: c :: d :: e :: f :: g :: h :: rest) =
      [a, b, c, d, e, f, g, h] :: chunkBits rest := rfl

theorem bitsToNat_append (l₁ l₂ : List Char) :
    bitsToNat (l₁ ++ l₂) = bitsToNat l₁ * 2 ^ l₂.length + bitsToNat l₂ := by
  suffices h : ∀ (l : List Char) (acc : Nat),
      l.foldl (fun acc c => 2 * acc + bitVal c) acc =
        acc * 2 ^ l.length + l.foldl (fun acc c => 2 * acc + bitVal c) 0 by
    unfold bitsToNat
    rw [List.foldl_append, h l₂]
  intro l
  induction l with
  | nil => intro acc; simp
  | cons c t ih =>
      intro acc
      simp only [List.foldl_cons, List.length_cons]
      rw [ih (2 * acc + bitVal c), ih (2 * 0 + bitVal c)]
      ring

theorem bitsToNat_lt (l : List Char) : bitsToNat l < 2 ^ l.length := by
  induction l with
  | nil => simp [bitsToNat]
  | cons c t ih =>
      have h : bitsToNat (c :: t) = bitsToNat [c] * 2 ^ t.length + bitsToNat t :=
        bitsToNat_append [c] t
      have hc1 : bitsToNat [c] = bitVal c := by simp [bitsToNat]
      rw [hc1] at h
      have hc : bitVal c ≤ 1 := by unfold bitVal; split <;> omega
      have hd : bitVal c * 2 ^ t.length ≤ 2 ^ t.length := by
        calc bitVal c * 2 ^ t.length ≤ 1 * 2 ^ t.length := Nat.mul_le_mul_right _ hc
          _ = 2 ^ t.length := one_mul _
      simp only [List.length_cons, pow_succ]
      omega

/-- For values fitting 16 bits that arise in this development (all are at
most 504), `bits_to_bytes(number_to_bits(n, 16))` is the little-endian
2-byte encoding of `n`. -/
theorem bits_to_bytes_16_le (n : Nat) (hn : n < 505) :
    bits_to_bytes (number_to_bits n 16) = [n % 256, n / 256] := by
  revert hn
  revert n
  decide

/-! ## `send_command` (frame construction and report chunking) -/

/-- The flag byte built from `flag_string = ('1' if mode == 'r' else '0') + '1000000'`;
`mode = true` models `'r'` (read). -/
def flagByte (mode : Bool) : Nat :=
  (bits_to_bytes ((if mode then '1' else '0') :: ['1', '0', '0', '0', '0', '0', '0'])).getD 0 0

/-- The 6-byte header assembled by `send_command` before the payload is
appended: flag byte, sequence byte, the two little-endian length bytes
(`len(data) + 2`), and the two little-endian command bytes. -/
def send_command_buffer (mode : Bool) (seq command : Nat) (data : List Nat) : List Nat :=
  let temp := bits_to_bytes (number_to_bits (data.length + 2) 16)
  [flagByte mode, seq, temp.getD 0 0, temp.getD 1 0, command % 256, command / 256 % 256]

/-- The continuation-report loop of `send_command`:
`while len(remaining_data) > 0: chunk = remaining_data[:64]; ...` with the
final chunk zero-padded to 64 bytes.  The fuel argument (instantiated with
the list length) makes the recursion structural; `l.length` iterations
always suffice since each step consumes at least one element. -/
def contReportsAux : Nat → List Nat → List (List Nat)
  | _, [] => []
  | 0, _ :: _ => []
  | fuel + 1, x :: xs =>
      let l := x :: xs
      (l.take 64 ++ List.replicate (64 - (l.take 64).length) 0) ::
        contReportsAux fuel (l.drop 64)

def contReports (l : List Nat) : List (List Nat) := contReportsAux l.length l

/-- Embedding of the transport-write behaviour of `send_command`: the list of
64-byte reports passed to `self.dev.write`, in order. -/
def send_command_reports (mode : Bool) (seq command : Nat) (data : List Nat) :
    List (List Nat) :=
  let buffer := send_command_buffer mode seq command data
  if buffer.length + data.length < 65 then
    let b2 := buffer ++ data
    [b2 ++ List.replicate (64 - b2.length) 0]
  else
    (buffer ++ data.take 58) :: contReports (data.drop 58)

theorem flagByte_eq (mode : Bool) : flagByte mode = if mode then 192 else 64 := by
  cases mode <;> rfl

theorem send_command_buffer_length (mode : Bool) (seq command : Nat) (data : List Nat) :
    (send_command_buffer mode seq command data).length = 6 := rfl

theorem send_command_buffer_eq (mode : Bool) (seq command : Nat) (data : List Nat)
    (hL : data.length ≤ 58) :
    send_command_buffer mode seq command data =
      [if mode then 192 else 64, seq, data.length + 2, 0, command % 256, command / 256 % 256] := by
  unfold send_command_buffer
  rw [bits_to_bytes_16_le (data.length + 2) (by omega)]
  have h1 : (data.length + 2) % 256 = data.length + 2 := Nat.mod_eq_of_lt (by omega)
  have h2 : (data.length + 2) / 256 = 0 := Nat.div_eq_of_lt (by omega)
  simp [flagByte_eq, h1, h2]

/-- Claim C2: a frame with payload of length at most 58 is sent as exactly one
64-byte report: the flag byte (`0xC0` for a read, `0x40` for a write: bit 7 =
direction, bit 6 = 1, bits 5-0 = 0), the sequence byte, the little-endian
16-bit value `len(payload) + 2`, the little-endian 16-bit command, the
payload, zero-padded to 64 bytes. -/
theorem send_command_single_report (mode : Bool) (seq command : Nat) (data : List Nat)
    (hL : data.length ≤ 58) (hcmd : command < 65536) :
    send_command_reports mode seq command data =
      [(if mode then 192 else 64) :: seq :: (data.length + 2) :: 0 ::
        (command % 256) :: (command / 256) :: (data ++ List.replicate (58 - data.length) 0)] := by
  unfold send_command_reports
  rw [if_pos (by rw [send_command_buffer_length]; omega)]
  rw [send_command_buffer_eq mode seq command data hL]
  have hdiv : command / 256 % 256 = command / 256 := Nat.mod_eq_of_lt (by omega)
  have hlen : ([if mode then 192 else 64, seq, data.length + 2, 0,
      command % 256, command / 256 % 256] ++ data).length = 6 + data.length := by
    simp only [List.length_append, List.length_cons, List.length_nil]
    try omega
  simp only [hdiv, hlen]
  have hpad : 64 - (6 + data.length) = 58 - data.length := by omega
  simp [hpad]

/-- Witness for C2, the standby frame of the specification: a write with
sequence 0, command `0x0200`, payload `[1]` produces the single report
`0x40, 0x00, 0x03, 0x00, 0x00, 0x02, 0x01` followed by 57 zero bytes. -/
theorem send_command_single_report_witness :
    send_command_reports false 0 512 [1] =
      [64 :: 0 :: 3 :: 0 :: 0 :: 2 :: ([1] ++ List.replicate 57 0)] :=
  send_command_single_report false 0 512 [1] (by decide) (by decide)

theorem contReportsAux_length (fuel : Nat) : ∀ l : List Nat, l.length ≤ fuel →
    (contReportsAux fuel l).length = (l.length + 63) / 64 := by
  induction fuel with
  | zero =>
      intro l hl
      cases l with
      | nil => rfl
      | cons x xs => simp at hl
  | succ n ih =>
      intro l hl
      cases l with
      | nil => rfl
      | cons x xs =>
          simp only [contReportsAux, List.length_cons]
          rw [ih ((x :: xs).drop 64) (by simp only [List.length_drop] at hl ⊢; simp at hl ⊢; omega)]
          simp only [List.length_drop, List.length_cons]
          omega

theorem contReportsAux_mem_length (fuel : Nat) : ∀ (l r : List Nat), l.length ≤ fuel →
    r ∈ contReportsAux fuel l → r.length = 64 := by
  induction fuel with
  | zero =>
      intro l r hl hr
      cases l with
      | nil => simp [contReportsAux] at hr
      | cons x xs => simp at hl
  | succ n ih =>
      intro l r hl hr
      cases l with
      | nil => simp [contReportsAux] at hr
      | cons x xs =>
          simp only [contReportsAux, List.mem_cons] at hr
          rcases hr with hr | hr
          · subst hr
            simp only [List.length_append, List.length_replicate, List.length_take]
            omega
          · exact ih ((x :: xs).drop 64) r
              (by simp only [List.length_drop] at hl ⊢; simp at hl ⊢; omega) hr

theorem contReportsAux_flatten (fuel : Nat) : ∀ l : List Nat, l.length ≤ fuel →
    (contReportsAux fuel l).flatten =
      l ++ List.replicate ((64 - l.length % 64) % 64) 0 := by
  induction fuel with
  | zero =>
      intro l hl
      cases l with
      | nil => rfl
      | cons x xs => simp at hl
  | succ n ih =>
      intro l hl
      cases l with
      | nil => rfl
      | cons x xs =>
          simp only [contReportsAux, List.flatten_cons]
          rw [ih ((x :: xs).drop 64) (by simp only [List.length_drop] at hl ⊢; simp at hl ⊢; omega)]
          by_cases h64 : (x :: xs).length ≤ 64
          · have hdrop : (x :: xs).drop 64 = [] := by
              apply List.drop_eq_nil_of_le; omega
            have htake : (x :: xs).take 64 = x :: xs := List.take_of_length_le h64
            rw [hdrop, htake]
            have hlen1 : 1 ≤ (x :: xs).length := by simp
            have harg : (64 - (x :: xs).length % 64) % 64 = 64 - (x :: xs).length := by
              omega
            rw [harg]
            simp
          · have htlen : ((x :: xs).take 64).length = 64 := by
              simp only [List.length_take]; omega
            have hdlen : ((x :: xs).drop 64).length = (x :: xs).length - 64 := by
              simp only [List.length_drop]
            rw [htlen, hdlen]
            have harg : (64 - ((x :: xs).length - 64) % 64) % 64 =
                (64 - (x :: xs).length % 64) % 64 := by omega
            rw [harg]
            simp only [Nat.sub_self, List.replicate_zero, List.append_nil]
            rw [← List.append_assoc, List.take_append_drop]

/-- Claim C3: `send_command` emits one transport report when the payload
length `L` is at most 58, and `1 + ceil((L - 58) / 64)` reports otherwise;
in the latter case the first report is the 6-byte header followed by exactly
the first 58 payload bytes, the continuation reports are all 64 bytes long
and carry the remaining payload bytes in order with no header, zero-padded
only at the very end. -/
theorem send_command_report_chunking (mode : Bool) (seq command : Nat) (data : List Nat) :
    ((send_command_reports mode seq command data).length =
        if data.length ≤ 58 then 1 else 1 + (data.length - 58 + 63) / 64)
    ∧ (58 < data.length →
        send_command_reports mode seq command data =
          (send_command_buffer mode seq command data ++ data.take 58) ::
            contReports (data.drop 58)
        ∧ (∀ r ∈ contReports (data.drop 58), r.length = 64)
        ∧ (contReports (data.drop 58)).flatten =
            data.drop 58 ++ List.replicate ((64 - (data.length - 58) % 64) % 64) 0) := by
  constructor
  · by_cases h : data.length ≤ 58
    · rw [if_pos h]
      unfold send_command_reports
      rw [if_pos (by rw [send_command_buffer_length]; omega)]
      rfl
    · rw [if_neg h]
      unfold send_command_reports
      rw [if_neg (by rw [send_command_buffer_length]; omega)]
      simp only [List.length_cons]
      rw [show contReports (data.drop 58) =
            contReportsAux (data.drop 58).length (data.drop 58) from rfl]
      rw [contReportsAux_length _ _ le_rfl]
      simp only [List.length_drop]
      omega
  · intro h
    refine ⟨?_, ?_, ?_⟩
    · unfold send_command_reports
      rw [if_neg (by rw [send_command_buffer_length]; omega)]
    · intro r hr
      exact contReportsAux_mem_length _ _ r le_rfl hr
    · rw [show contReports (data.drop 58) =
            contReportsAux (data.drop 58).length (data.drop 58) from rfl]
      rw [contReportsAux_flatten _ _ le_rfl]
      simp only [List.length_drop]

/-- Witness for C3 at a 100-byte payload: two reports are emitted and every
continuation report is 64 bytes long. -/
theorem send_command_report_chunking_witness :
    (send_command_reports false 0 512 (List.replicate 100 5)).length = 2 ∧
    (∀ r ∈ contReports ((List.replicate (100 : Nat) 5).drop 58), r.length = 64) := by
  have h := send_command_report_chunking false 0 512 (List.replicate 100 5)
  have h2 := h.2 (by rw [List.length_replicate]; omega)
  constructor
  · have h1 := h.1
    rw [List.length_replicate] at h1
    rw [h1]
    norm_num
  · exact h2.2.1

/-! ## `setup_pattern_LUT_definition` (pattern LUT entry packing) -/

/-- Embedding of the `byte_5` computation of `setup_pattern_LUT_definition`.
Python operator precedence binds `<<` tighter than `&`, so the source lines

  `byte_5 |= (bitdepth-1) & 0x07 << 1`
  `byte_5 |= (color) & 0x07 << 4`
  `byte_5 |= (wait_for_trigger) & 0x01 << 7`

mask the un-shifted operand with the shifted mask; this embedding keeps
exactly that grouping.  `clear_after_exposure` and `wait_for_trigger` are the
constants 0 fixed inside the source function. -/
def setup_pattern_byte5 (bitdepth color : Nat) : Nat :=
  let clear_after_exposure : Nat := 0
  let wait_for_trigger : Nat := 0
  let b0 := 0 ||| (clear_after_exposure &&& 1)
  let b1 := b0 ||| ((bitdepth - 1) &&& (7 <<< 1))
  let b2 := b1 ||| (color &&& (7 <<< 4))
  b2 ||| (wait_for_trigger &&& (1 <<< 7))

/-- Embedding of the 12-byte payload assembled by
`setup_pattern_LUT_definition` (booleans as the `int(...)` conversions of the
source; `(x >> k) & 0xFF` written as `x / 2^k % 256`). `byte_9` keeps the
source's Python grouping `(extended_bit_depth) & (0x01 << 1)`. -/
def setup_pattern_LUT_payload (pattern_index exposuretime darktime color bitdepth
    image_pattern_index bit_position : Nat)
    (disable_pattern_2_trigger_out extended_bit_depth : Bool) : List Nat :=
  let d2t : Nat := if disable_pattern_2_trigger_out then 1 else 0
  let ebd : Nat := if extended_bit_depth then 1 else 0
  let pattern_index_bytes := [pattern_index % 256, pattern_index / 256 % 256]
  let exposuretime_bytes :=
    [exposuretime % 256, exposuretime / 256 % 256, exposuretime / 65536 % 256]
  let byte_5 := setup_pattern_byte5 bitdepth color
  let darktime_bytes := [darktime % 256, darktime / 256 % 256, darktime / 65536 % 256]
  let byte_9 := (0 ||| (d2t &&& 1)) ||| (ebd &&& (1 <<< 1))
  let image_pattern_index_bytes := [image_pattern_index % 256, image_pattern_index / 256 % 256]
  let bit_postion_byte := (bit_position &&& 31) <<< 3
  let byte_10_11 := [image_pattern_index_bytes.getD 0 0,
    image_pattern_index_bytes.getD 1 0 ||| bit_postion_byte]
  pattern_index_bytes ++ exposuretime_bytes ++ [byte_5] ++ darktime_bytes ++ [byte_9] ++
    byte_10_11

/-- Claim C1 evaluated at a failing input: with `bitdepth = 8` and
`color = 7` (and the in-function constants `clear_after_exposure =
wait_for_trigger = 0`), byte 5 of the transmitted 12-byte payload is `6`
(`(8-1) & 0x0E  |  7 & 0x70` = 6), whereas the bit-packed value the claim
describes (`bits 1-3 = bitdepth-1`, `bits 4-6 = color`) is `126`.  The claim
(and the DLPC900 field layout the docstring cites) is the intent; the code's
operator grouping is the slip. -/
theorem setup_pattern_LUT_byte5_at_failing_input :
    (setup_pattern_LUT_payload 0 15000 0 7 8 0 0 false false).getD 5 0 = 6
    ∧ setup_pattern_byte5 8 7 = 6
    ∧ (((8 - 1) &&& 7) <<< 1) ||| ((7 &&& 7) <<< 4) = 126
    ∧ (6 : Nat) ≠ 126 := by decide

/-! ## `check_communication_status` (command `0x1A49`) -/

/-- A Python value as it occurs in the comparison chain of
`check_communication_status`: either a character of the bit string returned
by `number_to_bits`, or an integer literal. -/
inductive PyVal where
  | int (n : Nat)
  | char (c : Char)
deriving DecidableEq

/-- Python `==` on such values: values of different types are never equal
(`'0' == 0` is `False` in Python). -/
def pyEq : PyVal → PyVal → Bool
  | .int a, .int b => a == b
  | .char a, .char b => a == b
  | _, _ => false

/-- Embedding of `check_communication_status`, which evaluates
`not (ansbit[0] == ansbit[2] == 0)` on the bit STRING
`ansbit = number_to_bits(ans[-1][0], 8)` and raises `DMDerror` when that is
true; Python chains the comparison as
`(ansbit[0] == ansbit[2]) and (ansbit[2] == 0)`.  Returns `true` iff the
error is raised for the given status byte. -/
def check_communication_status_raises (statusByte : Nat) : Bool :=
  let ansbit := number_to_bits statusByte 8
  !(pyEq (.char (ansbit.getD 0 ' ')) (.char (ansbit.getD 2 ' '))
      && pyEq (.char (ansbit.getD 2 ' ')) (.int 0))

/-- Claim C5 against the code: `check_communication_status` raises
`DMDerror` for EVERY status byte — in particular for the byte `0` in which
bits 0 and 2 are both clear — because the characters of the bit string are
compared against the integer `0`, which is always unequal in Python. -/
theorem check_communication_status_always_raises (statusByte : Nat) :
    check_communication_status_raises statusByte = true := by
  simp [check_communication_status_raises, pyEq]

/-! ## `check_for_error` (generic error check, command `0x0100`) -/

/-- The fixed error table of `check_for_error`, transcribed from the source's
`error_dict`. -/
def error_dict_entries : List (Nat × String) :=
  [(1, "Batch file checksum error"),
   (2, "Device failure"),
   (3, "Invalid command number"),
   (4, "Incompatible controller and DMD combination"),
   (5, "Command not allowed in current mode"),
   (6, "Invalid command parameter"),
   (7, "Item referred by the parameter is not present"),
   (8, "Out of resource (RAM or Flash)"),
   (9, "Invalid BMP compression type"),
   (10, "Pattern bit number out of range"),
   (11, "Pattern BMP not present in flash"),
   (12, "Pattern dark time is out of range"),
   (13, "Signal delay parameter is out of range"),
   (14, "Pattern exposure time is out of range"),
   (15, "Pattern number is out of range"),
   (16, "Invalid pattern definition (errors other than 9-15)"),
   (17, "Pattern image memory address is out of range"),
   (255, "Internal Error")]

/-- `error_dict[code]` as an optional lookup. -/
def error_dict (code : Nat) : Option String :=
  (error_dict_entries.find? (fun p => p.1 == code)).map (fun p => p.2)

/-- Embedding of `check_for_error`: `none` models the no-error return,
`some msg` models the message the function surfaces (the source prints it).
Empty reply data returns immediately; a first byte of 0 returns immediately;
otherwise the table is consulted with the f-string fallback
`f"Undocumented error [{n}]"`. -/
def check_for_error_msg (data : List Nat) : Option String :=
  match data with
  | [] => none
  | b :: _ =>
      if b = 0 then none
      else
        match error_dict b with
        | some m => some m
        | none => some ("Undocumented error [" ++ Nat.repr b ++ "]")

/-- Counterexample for C8 as stated: for the undocumented code 220 the code
surfaces `"Undocumented error [220]"` (capital `U`), not the claim's literal
fallback string `"undocumented error [220]"`. -/
theorem check_for_error_fallback_counterexample :
    check_for_error_msg [220] = some "Undocumented error [220]"
    ∧ check_for_error_msg [220] ≠ some "undocumented error [220]" := by decide

/-- Claim C8 (amended: the fallback message is spelled
`"Undocumented error [n]"`): empty reply data and a first byte 0 are both
treated as no error; a first byte found in the 18-entry table (whose key set
is exactly {1,...,17,255}) surfaces exactly the table's message; any other
non-zero first byte surfaces the fallback message with the code embedded in
decimal. -/
theorem check_for_error_table (b : Nat) (rest : List Nat) (hb : b < 256) :
    check_for_error_msg [] = none
    ∧ check_for_error_msg (0 :: rest) = none
    ∧ (∀ m, error_dict b = some m → check_for_error_msg (b :: rest) = some m)
    ∧ (b ≠ 0 → error_dict b = none →
        check_for_error_msg (b :: rest) =
          some ("Undocumented error [" ++ Nat.repr b ++ "]"))
    ∧ ((error_dict b).isSome ↔ (1 ≤ b ∧ b ≤ 17) ∨ b = 255) := by
  refine ⟨rfl, by simp [check_for_error_msg], ?_, ?_, ?_⟩
  · intro m hm
    have hb0 : b ≠ 0 := by
      rintro rfl
      rw [show error_dict 0 = none from by decide] at hm
      cases hm
    simp [check_for_error_msg, hb0, hm]
  · intro hb0 hnone
    simp [check_for_error_msg, hb0, hnone]
  · have h : ∀ c : Nat, c < 256 →
        ((error_dict c).isSome ↔ (1 ≤ c ∧ c ≤ 17) ∨ c = 255) := by decide
    exact h b hb

/-- Witness for C8's amended theorem: code 5 surfaces its documented message
and code 220 surfaces the capitalised fallback. -/
theorem check_for_error_table_witness :
    check_for_error_msg [5] = some "Command not allowed in current mode"
    ∧ check_for_error_msg [220] =
        some ("Undocumented error [" ++ Nat.repr 220 ++ "]") := by
  have h5 := check_for_error_table 5 [] (by decide)
  have h220 := check_for_error_table 220 [] (by decide)
  exact ⟨h5.2.2.1 _ (by decide), h220.2.2.2.1 (by decide) (by decide)⟩

/-! ## `set_display_mode` / `get_display_mode` (display-mode state machine) -/

/-- Direction of a `send_command` call. -/
inductive Dir where
  | read
  | write
deriving DecidableEq

/-- Python exceptions raised by the display-mode functions. -/
inductive PyExn where
  | valueError
  | indexError
  | keyError
  | connectionError
  | typeError
deriving DecidableEq

/-- One observable event of `set_display_mode`: a `send_command` call
(direction, sequence byte, command code, payload) or the fixed
`time.sleep(0.5)` settle delay. -/
inductive SDMEvent where
  | send (dir : Dir) (seq : Nat) (code : Nat) (data : List Nat)
  | settle
deriving DecidableEq

/-- The `self.display_modes` dictionary of the source; `none` models a key
that is absent. -/
def display_modes (mode : String) : Option Nat :=
  if mode = "video" then some 0
  else if mode = "pattern" then some 1
  else if mode = "video-pattern" then some 2
  else if mode = "otf" then some 3
  else none

/-- The `self.display_modes_inv` dictionary of the source. -/
def display_modes_inv (v : Nat) : Option String :=
  if v = 0 then some "video"
  else if v = 1 then some "pattern"
  else if v = 2 then some "video-pattern"
  else if v = 3 then some "otf"
  else none

/-- One call of `get_display_mode`, driven by the device's reply data
(`none` models an empty reply, on which `ans[-1][0]` raises `IndexError`; an
out-of-dictionary value raises `KeyError` from `display_modes_inv`).  On
success the returned mode is also the new tracked `current_mode`. -/
def get_display_mode_step (reply : Option Nat) : Except PyExn String :=
  match reply with
  | none => .error .indexError
  | some v =>
      match display_modes_inv v with
      | none => .error .keyError
      | some m => .ok m

/-- Result of a `set_display_mode` call: the events performed, the tracked
`current_mode` after the call, and the outcome (`ok` or raised exception). -/
structure SDMOut where
  events : List SDMEvent
  current_mode : String
  result : Except PyExn Unit

/-- Embedding of `set_display_mode(mode)` on a session whose tracked
`current_mode` is `cur`.  `r1` and `r2` are the device's reply data to the
first and (only if the first raised `IndexError`) second confirmation read.
Faithful to the source order: unknown-mode check, the video-pattern guard
(both raise `ValueError` before anything is sent), the mode-set write, the
fixed settle delay, the confirmation read with a single retry on
`IndexError`, and `ConnectionError` when the confirmed mode differs from the
requested one (the tracked mode having been updated by `get_display_mode`
from the readback). -/
def set_display_mode (mode cur : String) (r1 r2 : Option Nat) : SDMOut :=
  if (display_modes mode).isNone then
    ⟨[], cur, .error .valueError⟩
  else if mode = "video-pattern" ∧ cur ≠ "video" then
    ⟨[], cur, .error .valueError⟩
  else
    let base : List SDMEvent :=
      [.send .write 0 6683 [(display_modes mode).getD 0], .settle]
    let rcmd : SDMEvent := .send .read 0 6683 []
    match get_display_mode_step r1 with
    | .ok m =>
        ⟨base ++ [rcmd], m, if m ≠ mode then .error .connectionError else .ok ()⟩
    | .error .indexError =>
        match get_display_mode_step r2 with
        | .ok m =>
            ⟨base ++ [rcmd, rcmd], m,
              if m ≠ mode then .error .connectionError else .ok ()⟩
        | .error e => ⟨base ++ [rcmd, rcmd], cur, .error e⟩
    | .error e => ⟨base ++ [rcmd], cur, .error e⟩

/-- Claim C4: requesting `video-pattern` while the tracked mode is not
`video` raises before any command is sent; for a known mode whose guard is
satisfied, the call sends the mode-set write (command `0x1A1B = 6683`),
waits the fixed settle delay, performs the confirmation read — retried
exactly once when the first read transiently fails with `IndexError` — and
then succeeds iff the confirmed readback equals the requested mode (raising
`ConnectionError` otherwise), the tracked mode being updated only from the
confirmed readback (and left unchanged when the readback itself fails). -/
theorem set_display_mode_spec (mode cur : String) (r1 r2 : Option Nat) :
    ((mode = "video-pattern" ∧ cur ≠ "video") →
        set_display_mode mode cur r1 r2 = ⟨[], cur, .error .valueError⟩)
    ∧ ((display_modes mode).isSome → (mode = "video-pattern" → cur = "video") →
        (set_display_mode mode cur r1 r2).events.take 2 =
          [.send .write 0 6683 [(display_modes mode).getD 0], .settle]
        ∧ (set_display_mode mode cur r1 r2).events.drop 2 =
            List.replicate (if r1 = none then 2 else 1) (.send .read 0 6683 [])
        ∧ (∀ m, get_display_mode_step (if r1 = none then r2 else r1) = .ok m →
            (set_display_mode mode cur r1 r2).current_mode = m
            ∧ ((set_display_mode mode cur r1 r2).result = .ok () ↔ m = mode))
        ∧ (∀ e, get_display_mode_step (if r1 = none then r2 else r1) = .error e →
            (set_display_mode mode cur r1 r2).current_mode = cur
            ∧ (set_display_mode mode cur r1 r2).result = .error e)) := by
  constructor
  · rintro ⟨hm, hc⟩
    subst hm
    unfold set_display_mode
    rw [if_neg (by simp [display_modes])]
    rw [if_pos ⟨rfl, hc⟩]
  · intro hsome hguard
    have h1 : ¬ (display_modes mode).isNone := by
      simp only [Option.isNone_iff_eq_none]
      intro h
      rw [h] at hsome
      simp at hsome
    have h2 : ¬ (mode = "video-pattern" ∧ cur ≠ "video") := by
      rintro ⟨hm, hc⟩
      exact hc (hguard hm)
    have hbase : ∀ r1' r2' : Option Nat, set_display_mode mode cur r1' r2' =
        (match get_display_mode_step r1' with
         | .ok m =>
             (⟨[.send .write 0 6683 [(display_modes mode).getD 0], .settle] ++
                [.send .read 0 6683 []], m,
               if m ≠ mode then .error .connectionError else .ok ()⟩ : SDMOut)
         | .error .indexError =>
             match get_display_mode_step r2' with
             | .ok m =>
                 ⟨[.send .write 0 6683 [(display_modes mode).getD 0], .settle] ++
                    [.send .read 0 6683 [], .send .read 0 6683 []], m,
                   if m ≠ mode then .error .connectionError else .ok ()⟩
             | .error e =>
                 ⟨[.send .write 0 6683 [(display_modes mode).getD 0], .settle] ++
                    [.send .read 0 6683 [], .send .read 0 6683 []], cur, .error e⟩
         | .error e =>
             ⟨[.send .write 0 6683 [(display_modes mode).getD 0], .settle] ++
                [.send .read 0 6683 []], cur, .error e⟩) := by
      intro r1' r2'
      unfold set_display_mode
      rw [if_neg h1, if_neg h2]
    cases r1 with
    | some v =>
        have heff : (if (some v : Option Nat) = none then r2 else some v) = some v := by
          simp
        rw [hbase (some v) r2, heff]
        cases hv : display_modes_inv v with
        | some m =>
            have hstep : get_display_mode_step (some v) = .ok m := by
              simp [get_display_mode_step, hv]
            rw [hstep]
            refine ⟨rfl, by simp, ?_, ?_⟩
            · intro m' hm'
              cases hm'
              refine ⟨rfl, ?_⟩
              show (if m ≠ mode then Except.error PyExn.connectionError else Except.ok ()) =
                  Except.ok () ↔ m = mode
              by_cases hmq : m = mode
              · simp [hmq]
              · simp [hmq]
            · intro e' he'
              cases he'
        | none =>
            have hstep : get_display_mode_step (some v) = .error .keyError := by
              simp [get_display_mode_step, hv]
            rw [hstep]
            refine ⟨rfl, by simp, ?_, ?_⟩
            · intro m' hm'
              cases hm'
            · intro e' he'
              cases he'
              exact ⟨rfl, rfl⟩
    | none =>
        have heff : (if (none : Option Nat) = none then r2 else none) = r2 := by
          simp
        have hstep1 : get_display_mode_step none = .error .indexError := rfl
        rw [hbase none r2, heff, hstep1]
        cases hr2 : get_display_mode_step r2 with
        | ok m =>
            refine ⟨rfl, by simp, ?_, ?_⟩
            · intro m' hm'
              cases hm'
              refine ⟨rfl, ?_⟩
              show (if m ≠ mode then Except.error PyExn.connectionError else Except.ok ()) =
                  Except.ok () ↔ m = mode
              by_cases hmq : m = mode
              · simp [hmq]
              · simp [hmq]
            · intro e' he'
              cases he'
        | error e =>
            refine ⟨rfl, by simp, ?_, ?_⟩
            · intro m' hm'
              cases hm'
            · intro e' he'
              cases he'
              exact ⟨rfl, rfl⟩

/-- Witness for C4: from tracked mode `video`, requesting `video-pattern`
with a transiently failing first read and a readback of 2 succeeds and
tracks the confirmed mode; from tracked mode `pattern` the same request
raises with no command sent. -/
theorem set_display_mode_spec_witness :
    (set_display_mode "video-pattern" "video" none (some 2)).result = .ok ()
    ∧ (set_display_mode "video-pattern" "video" none (some 2)).current_mode = "video-pattern"
    ∧ (set_display_mode "video-pattern" "video" none (some 2)).events.drop 2 =
        List.replicate 2 (.send .read 0 6683 [])
    ∧ (set_display_mode "video-pattern" "pattern" none none).events = [] := by
  have h := (set_display_mode_spec "video-pattern" "video" none (some 2)).2
      (by decide) (fun _ => rfl)
  have hok := h.2.2.1 "video-pattern" rfl
  have hblock := (set_display_mode_spec "video-pattern" "pattern" none none).1
      ⟨rfl, by decide⟩
  refine ⟨hok.2.mpr rfl, hok.1, ?_, ?_⟩
  · have := h.2.1
    simpa using this
  · rw [hblock]

/-! ## `dmd.__init__` (initial tracked mode) -/

/-- Embedding of the `current_mode` field set by `dmd.__init__`: the literal
string `"pattern"`.  The constructor never queries the device, so the
physical device mode (the argument) is ignored. -/
def dmd_init_current_mode (_physical_device_mode : Nat) : String := "pattern"

/-- Claim C9: right after construction the tracked mode is `"pattern"`
whatever the physical device mode is, so `set_display_mode('video-pattern')`
on a fresh session always raises `ValueError` before any command is sent —
even when the device itself is in video mode. -/
theorem dmd_init_blocks_video_pattern (physical_device_mode : Nat) (r1 r2 : Option Nat) :
    dmd_init_current_mode physical_device_mode = "pattern"
    ∧ set_display_mode "video-pattern" (dmd_init_current_mode physical_device_mode) r1 r2 =
        ⟨[], "pattern", .error .valueError⟩ := by
  refine ⟨rfl, ?_⟩
  show set_display_mode "video-pattern" "pattern" r1 r2 = _
  unfold set_display_mode
  rw [if_neg (by simp [display_modes])]
  rw [if_pos ⟨rfl, by decide⟩]

/-! ## `set_flip_longaxis` (image flips, section 2.3.4 of the source) -/

/-- A method binding of the `dmd` class body, summarised by the number of
parameters besides `self`, the direction of its `send_command` call, and the
command code it sends. -/
structure MethodDef where
  arity : Nat
  dir : Dir
  command : Nat

/-- The three successive `def set_flip_longaxis` bindings in the class body,
in source order: the writer of `0x1008` (one `flip` argument), the reader of
`0x1008` (no argument), and the reader of `0x1009` (no argument). -/
def set_flip_longaxis_defs : List MethodDef :=
  [⟨1, .write, 0x1008⟩, ⟨0, .read, 0x1008⟩, ⟨0, .read, 0x1009⟩]

/-- Python class-body semantics: a later `def` of the same name rebinds it,
so the surviving binding is the last one. -/
def survivingDef (defs : List MethodDef) : Option MethodDef := defs.getLast?

/-- Calling a bound method with `nargs` positional arguments (besides
`self`): Python raises `TypeError` when the count does not match. -/
def callMethod (m : MethodDef) (nargs : Nat) : Except PyExn MethodDef :=
  if nargs = m.arity then .ok m else .error .typeError

/-- The command codes of every write-direction `send_command` performed by
the surviving methods of the `dmd` class, transcribed from the source:
`set_port_clock_definition` (0x1A03), `set_input_source` (0x1A00),
`lock_displayport`/`lock_hdmi`/`lock_release` (0x1A01),
`set_display_mode` (0x1A1B), `start_pattern`/`pause_pattern`/`stop_pattern`
(0x1A24), `start_pattern_from_LUT` (0x1A31), `setup_pattern_LUT_definition`
and `definepattern` (0x1A34), `standby`/`wakeup`/`reset` (0x0200),
`idle_on`/`idle_off` (0x0201), `set_flip_shortaxis` (0x1009),
`setbmp` (0x1A2A) and `bmpload` (0x1A2B).  The overwritten first
`set_flip_longaxis` binding is the only occurrence of a write of `0x1008`
in the file and is unreachable. -/
def class_write_commands : List Nat :=
  [0x1A03, 0x1A00, 0x1A01, 0x1A1B, 0x1A24, 0x1A31, 0x1A34, 0x0200, 0x0201,
   0x1009, 0x1A34, 0x1A2A, 0x1A2B]

/-- Claim C10: `set_flip_longaxis` is bound three times, the surviving
binding takes no `flip` argument and READS command `0x1009` (the short-axis
flip state); calling it with one (boolean) argument raises `TypeError`; and
no reachable operation of the class writes command `0x1008`. -/
theorem set_flip_longaxis_rebinding :
    set_flip_longaxis_defs.length = 3
    ∧ survivingDef set_flip_longaxis_defs = some ⟨0, .read, 0x1009⟩
    ∧ callMethod ⟨0, .read, 0x1009⟩ 1 = .error .typeError
    ∧ 0x1008 ∉ class_write_commands := by
  refine ⟨rfl, rfl, rfl, by decide⟩

/-! ## `bmpload` (bulk sub-chunk upload, command `0x1A2B`) -/

/-- The sub-chunk length of packet `i` in `bmpload`: 504 bytes for every
packet before the last, `size % 504` for the last. -/
def chunkLen (size i : Nat) : Nat := if i < size / 504 then 504 else size % 504

/-- Embedding of `bmpload(image, size)`: the list of command payloads (one
per `send_command('w', 0x11, 0x1a2b, payload)` call), in order.  Packet `i`
starts at `counter = 504 * i` because every earlier packet consumed exactly
504 bytes; its payload is the two bytes `leng[0], leng[1]` of
`bits_to_bytes(number_to_bits(bits, 16))` followed by `bits` image bytes. -/
def bmpload_payloads (image : List Nat) (size : Nat) : List (List Nat) :=
  let packnum := size / 504 + 1
  (List.range packnum).map (fun i =>
    let bits := if i < packnum - 1 then 504 else size % 504
    (bits_to_bytes (number_to_bits bits 16)).take 2 ++ (image.drop (504 * i)).take bits)

theorem chunkLen_le (size i : Nat) : chunkLen size i ≤ 504 := by
  unfold chunkLen
  split <;> omega

theorem bmpload_payload_form (image : List Nat) (size i : Nat) (hi : i ≤ size / 504) :
    (bmpload_payloads image size).getD i [] =
      [chunkLen size i % 256, chunkLen size i / 256] ++
        (image.drop (504 * i)).take (chunkLen size i) := by
  unfold bmpload_payloads
  rw [List.getD_eq_getElem?_getD, List.getElem?_map,
    List.getElem?_range (by omega : i < size / 504 + 1)]
  simp only [Option.map_some', Option.getD_some]
  have hbits : (if i < size / 504 + 1 - 1 then 504 else size % 504) = chunkLen size i := by
    rw [Nat.add_sub_cancel]
    rfl
  rw [hbits]
  rw [bits_to_bytes_16_le (chunkLen size i) (by have := chunkLen_le size i; omega)]
  rfl

theorem bmpload_chunk_length (image : List Nat) (size i : Nat) (h : image.length = size)
    (hi : i ≤ size / 504) :
    ((image.drop (504 * i)).take (chunkLen size i)).length = chunkLen size i := by
  rw [List.length_take, List.length_drop, h]
  unfold chunkLen
  rcases Nat.lt_or_ge i (size / 504) with hlt | hge
  · rw [if_pos hlt]
    have : 504 * (i + 1) ≤ 504 * (size / 504) := by
      apply Nat.mul_le_mul_left
      omega
    have h2 : 504 * (size / 504) ≤ size := Nat.mul_div_le size 504 |>.trans_eq rfl
    omega
  · have hieq : i = size / 504 := by omega
    rw [if_neg (by omega)]
    subst hieq
    have h2 : 504 * (size / 504) + size % 504 = size := by
      rw [Nat.mul_comm]
      exact Nat.div_add_mod size 504 ▸ by rw [Nat.mul_comm]; omega
    omega

theorem flatten_chunks_504 (l : List Nat) (m : Nat) :
    ((List.range m).map (fun i => (l.drop (504 * i)).take 504)).flatten ++
      l.drop (504 * m) = l := by
  induction m with
  | zero => simp
  | succ m ih =>
      rw [List.range_succ, List.map_append, List.flatten_append]
      simp only [List.map_cons, List.map_nil, List.flatten_cons, List.flatten_nil,
        List.append_nil]
      rw [List.append_assoc]
      have hdd : l.drop (504 * (m + 1)) = (l.drop (504 * m)).drop 504 := by
        rw [List.drop_drop, Nat.mul_succ]
      rw [hdd, List.take_append_drop]
      exact ih

/-- Claim C7: `bmpload` on a blob of `size` bytes emits exactly
`size / 504 + 1` bulk-load command frames; frame `i` carries the 2-byte
little-endian sub-chunk length followed by exactly that many raw blob bytes
(504 for every frame before the last, `size % 504` — possibly 0 — for the
last); the frames consume the blob bytes in order, covering it exactly; and
the list of sub-chunk sizes is `504, ..., 504, size % 504`. -/
theorem bmpload_chunking (image : List Nat) (size : Nat) (h : image.length = size) :
    (bmpload_payloads image size).length = size / 504 + 1
    ∧ (∀ i, i ≤ size / 504 →
        (bmpload_payloads image size).getD i [] =
          [chunkLen size i % 256, chunkLen size i / 256] ++
            (image.drop (504 * i)).take (chunkLen size i)
        ∧ ((image.drop (504 * i)).take (chunkLen size i)).length = chunkLen size i)
    ∧ ((bmpload_payloads image size).map (fun p => p.drop 2)).flatten = image
    ∧ (bmpload_payloads image size).map (fun p => p.length - 2) =
        List.replicate (size / 504) 504 ++ [size % 504] := by
  have hform : ∀ i ∈ List.range (size / 504 + 1),
      (fun i =>
        (bits_to_bytes (number_to_bits
          (if i < size / 504 + 1 - 1 then 504 else size % 504) 16)).take 2 ++
          (image.drop (504 * i)).take
            (if i < size / 504 + 1 - 1 then 504 else size % 504)) i =
      (fun i => [chunkLen size i % 256, chunkLen size i / 256] ++
          (image.drop (504 * i)).take (chunkLen size i)) i := by
    intro i hi
    rw [List.mem_range] at hi
    simp only
    have hbits : (if i < size / 504 + 1 - 1 then 504 else size % 504) = chunkLen size i := by
      rw [Nat.add_sub_cancel]
      rfl
    rw [hbits, bits_to_bytes_16_le (chunkLen size i) (by have := chunkLen_le size i; omega)]
    rfl
  have hmap : bmpload_payloads image size =
      (List.range (size / 504 + 1)).map
        (fun i => [chunkLen size i % 256, chunkLen size i / 256] ++
          (image.drop (504 * i)).take (chunkLen size i)) := by
    unfold bmpload_payloads
    exact List.map_congr_left hform
  refine ⟨?_, ?_, ?_, ?_⟩
  · rw [hmap, List.length_map, List.length_range]
  · intro i hi
    exact ⟨bmpload_payload_form image size i hi, bmpload_chunk_length image size i h hi⟩
  · rw [hmap, List.map_map]
    have hdrop : ∀ i ∈ List.range (size / 504 + 1),
        ((fun p : List Nat => p.drop 2) ∘
          (fun i => [chunkLen size i % 256, chunkLen size i / 256] ++
            (image.drop (504 * i)).take (chunkLen size i))) i =
        (fun i => (image.drop (504 * i)).take (chunkLen size i)) i := by
      intro i hi
      rfl
    rw [List.map_congr_left hdrop]
    rw [List.range_succ, List.map_append]
    have hfull : ∀ i ∈ List.range (size / 504),
        (fun i => (image.drop (504 * i)).take (chunkLen size i)) i =
        (fun i => (image.drop (504 * i)).take 504) i := by
      intro i hi
      rw [List.mem_range] at hi
      simp only [chunkLen, if_pos hi]
    rw [List.map_congr_left hfull]
    have hlast : (image.drop (504 * (size / 504))).take (chunkLen size (size / 504)) =
        image.drop (504 * (size / 504)) := by
      apply List.take_of_length_le
      rw [List.length_drop, h]
      unfold chunkLen
      rw [if_neg (by omega)]
      omega
    simp only [List.map_cons, List.map_nil, List.flatten_append, List.flatten_cons,
      List.flatten_nil, List.append_nil, hlast]
    exact flatten_chunks_504 image (size / 504)
  · rw [hmap, List.map_map]
    have hlen : ∀ i ∈ List.range (size / 504 + 1),
        ((fun p : List Nat => p.length - 2) ∘
          (fun i => [chunkLen size i % 256, chunkLen size i / 256] ++
            (image.drop (504 * i)).take (chunkLen size i))) i =
        (fun i => chunkLen size i) i := by
      intro i hi
      rw [List.mem_range] at hi
      have hcl := bmpload_chunk_length image size i h (by omega)
      simp only [Function.comp_apply, List.length_append, List.length_cons,
        List.length_nil, hcl]
      omega
    rw [List.map_congr_left hlen]
    rw [List.range_succ, List.map_append]
    have hfull : ∀ i ∈ List.range (size / 504),
        (fun i => chunkLen size i) i = (fun _ => (504 : Nat)) i := by
      intro i hi
      rw [List.mem_range] at hi
      simp only [chunkLen, if_pos hi]
    rw [List.map_congr_left hfull, List.map_const', List.length_range]
    simp only [List.map_cons, List.map_nil]
    have : chunkLen size (size / 504) = size % 504 := by
      unfold chunkLen
      rw [if_neg (by omega)]
    rw [this]

/-- Witness for C7, the 1100-byte scenario of the specification: the three
frames carry sub-chunks of sizes 504, 504 and 92. -/
theorem bmpload_chunking_witness :
    (bmpload_payloads (List.replicate 1100 0) 1100).map (fun p => p.length - 2) =
      [504, 504, 92] := by
  have h := (bmpload_chunking (List.replicate 1100 0) 1100 (by simp)).2.2.2
  rw [h]
  rfl

/-! ## `defsequence` (pattern-on-the-fly sequence upload) -/

/-- One call `defsequence` makes on the session, recorded at method
granularity with the arguments of the call: `definepattern(index, exposure,
bitdepth, color, triggerin, darktime, triggerout, patind, bitpos)`,
`setbmp(index, size)` and `bmpload(image, size)` are the concrete methods of
the source; `stopSequence` and `configureLUT` model the two methods that are
only called, not defined, under src (see below). -/
inductive SeqAction where
  | stopSequence
  | definePattern (index exposure bitdepth : Nat) (color : String)
      (triggerIn : Bool) (darktime triggerOut patind bitpos : Nat)
  | configureLUT (num rep : Nat)
  | setBMP (index size : Nat)
  | bmpLoad (data : List Nat) (size : Nat)
deriving DecidableEq

/-- Modelled from the spec: `defsequence` begins with `self.stopsequence()`
but no method of that name is defined under src (only this call site and
the test script mention it); spec section 4.6 step 1 says it stops any
running pattern sequence, so it is modelled as the single stop action. -/
def stopsequence_action : SeqAction := SeqAction.stopSequence

/-- Modelled from the spec: `defsequence` calls `self.configurelut(num, rep)`
but no method of that name is defined under src; spec section 4.6 step 4
says it configures LUT playback with the total pattern count and the repeat
count, so it is modelled as the single configure action carrying both. -/
def configurelut_action (num rep : Nat) : SeqAction := SeqAction.configureLUT num rep

/-- The slice of the pattern list handed to the encoder for image group `i`:
`arr[i*24:(i+1)*24]` for every group before the last, `arr[i*24:]` for the
last (`defsequence`'s `imagedata`). -/
def groupSlice {α : Type} (arr : List α) (i : Nat) : List α :=
  if i < (arr.length - 1) / 24 then (arr.drop (i * 24)).take 24 else arr.drop (i * 24)

/-- The number of image groups `defsequence` builds: `(num-1)//24 + 1`
(valid for `num ≥ 1`; Python's floor division of `-1` would give 0 groups
for an empty list, which the claim's `N ≥ 1` hypothesis excludes). -/
def defsequence_group_count (num : Nat) : Nat := (num - 1) / 24 + 1

/-- Embedding of `defsequence(images, exp, ti, dt, to, rep)` as the ordered
list of session calls it performs.  The per-pattern parameter lists
`exp/ti/dt/to` are modelled as index functions (the source indexes them with
`exp[j]` etc.).  `enc` is the external run-length encoder
(`dlpyc900.erle.encode`), an out-of-scope collaborator returning
`(bytes, byte_count)`; the source calls it once per group slice and replays
the stored results in the upload loop, which equals calling it again since
it is a pure function.  The `self.check_for_errors()` calls inside
`definepattern`/`bmpload` (another method never defined under src) are
status reads and contribute no sequence-level action. -/
def defsequence {α : Type} (enc : List α → List Nat × Nat) (images : List α)
    (exposure : Nat → Nat) (ti : Nat → Bool) (dt : Nat → Nat) (triggerOut : Nat → Nat)
    (rep : Nat) : List SeqAction :=
  let num := images.length
  stopsequence_action ::
    (((List.range (defsequence_group_count num)).map (fun i =>
        (List.range' (i * 24)
            ((if i < (num - 1) / 24 then (i + 1) * 24 else num) - i * 24)).map
          (fun j => SeqAction.definePattern j (exposure j) 1 "111" (ti j) (dt j)
            (triggerOut j) i (j - i * 24)))).flatten
      ++ [configurelut_action num rep]
      ++ ((List.range (defsequence_group_count num)).map (fun i =>
          [SeqAction.setBMP ((num - 1) / 24 - i)
              (enc (groupSlice images ((num - 1) / 24 - i))).2,
           SeqAction.bmpLoad (enc (groupSlice images ((num - 1) / 24 - i))).1
              (enc (groupSlice images ((num - 1) / 24 - i))).2])).flatten)

theorem groupSlice_length_le {α : Type} (l : List α) (i : Nat) :
    (groupSlice l i).length ≤ 24 := by
  unfold groupSlice
  split
  · rename_i hcond
    rw [List.length_take]
    omega
  · rename_i hcond
    rw [List.length_drop]
    omega

theorem range_group_partition : ∀ (fuel n : Nat), n ≤ fuel → 1 ≤ n →
    ((List.range ((n - 1) / 24 + 1)).map (fun i =>
        List.range' (i * 24)
          ((if i < (n - 1) / 24 then (i + 1) * 24 else n) - i * 24))).flatten
      = List.range n := by
  intro fuel
  induction fuel with
  | zero => intro n h h1; omega
  | succ fuel ih =>
      intro n h h1
      by_cases h24 : n ≤ 24
      · have hg : (n - 1) / 24 = 0 := by omega
        rw [hg]
        rw [show List.range (0 + 1) = [0] from rfl]
        simp only [List.map_cons, List.map_nil, List.flatten_cons, List.flatten_nil,
          List.append_nil]
        rw [if_neg (by omega)]
        rw [Nat.zero_mul, Nat.sub_zero, ← List.range_eq_range']
      · have h25 : 25 ≤ n := by omega
        rw [show (n - 1) / 24 + 1 = (((n - 24) - 1) / 24 + 1) + 1 from by omega]
        rw [List.range_succ_eq_map]
        simp only [List.map_cons, List.flatten_cons, List.map_map]
        have hzero : (if 0 < (n - 1) / 24 then (0 + 1) * 24 else n) - 0 * 24 = 24 := by
          rw [if_pos (by omega : 0 < (n - 1) / 24)]
          try omega
        rw [hzero]
        have hsucc : ((fun i =>
            List.range' (i * 24)
              ((if i < (n - 1) / 24 then (i + 1) * 24 else n) - i * 24)) ∘ Nat.succ) =
            (fun i => List.map (fun x => 24 + x)
              (List.range' (i * 24)
                ((if i < ((n - 24) - 1) / 24 then (i + 1) * 24 else n - 24) - i * 24))) := by
          funext i
          simp only [Function.comp_apply]
          rw [List.map_add_range']
          have harg1 : 24 + i * 24 = Nat.succ i * 24 := by omega
          have harg2 : (if Nat.succ i < (n - 1) / 24 then (Nat.succ i + 1) * 24 else n)
              - Nat.succ i * 24 =
              (if i < ((n - 24) - 1) / 24 then (i + 1) * 24 else n - 24) - i * 24 := by
            by_cases hc : i < ((n - 24) - 1) / 24
            · rw [if_pos hc, if_pos (by omega)]
              omega
            · rw [if_neg hc, if_neg (by omega)]
              omega
          rw [harg1, harg2]
        rw [hsucc]
        have hmm : (List.range (((n - 24) - 1) / 24 + 1)).map
              (fun i => List.map (fun x => 24 + x)
                (List.range' (i * 24)
                  ((if i < ((n - 24) - 1) / 24 then (i + 1) * 24 else n - 24) - i * 24))) =
            ((List.range (((n - 24) - 1) / 24 + 1)).map
              (fun i => List.range' (i * 24)
                ((if i < ((n - 24) - 1) / 24 then (i + 1) * 24 else n - 24) - i * 24))).map
              (List.map (fun x => 24 + x)) := by
          rw [List.map_map]
          exact rfl
        rw [hmm, ← List.map_flatten]
        rw [ih (n - 24) (by omega) (by omega)]
        rw [show List.range (n - 24) = List.range' 0 (n - 24) from List.range_eq_range' _]
        rw [List.map_add_range']
        rw [show (24 : Nat) + 0 = 0 + 1 * 24 from rfl]
        rw [List.range'_append 0 24 (n - 24) 1]
        rw [show n - 24 + 24 = n from by omega, ← List.range_eq_range']

theorem groupSlice_partition {α : Type} : ∀ (fuel : Nat) (l : List α),
    l.length ≤ fuel → 1 ≤ l.length →
    ((List.range ((l.length - 1) / 24 + 1)).map (fun i => groupSlice l i)).flatten = l := by
  intro fuel
  induction fuel with
  | zero =>
      intro l h h1
      omega
  | succ fuel ih =>
      intro l h h1
      by_cases h24 : l.length ≤ 24
      · have hg : (l.length - 1) / 24 = 0 := by omega
        rw [hg, show List.range (0 + 1) = [0] from rfl]
        simp only [List.map_cons, List.map_nil, List.flatten_cons, List.flatten_nil,
          List.append_nil]
        unfold groupSlice
        rw [hg]
        rw [if_neg (by omega)]
        rw [Nat.zero_mul, List.drop_zero]
      · rw [show (l.length - 1) / 24 + 1 = (((l.drop 24).length - 1) / 24 + 1) + 1 from by
          rw [List.length_drop]; omega]
        rw [List.range_succ_eq_map]
        simp only [List.map_cons, List.flatten_cons, List.map_map]
        have hzero : groupSlice l 0 = l.take 24 := by
          unfold groupSlice
          rw [if_pos (by omega : 0 < (l.length - 1) / 24)]
          rw [Nat.zero_mul, List.drop_zero]
        have hsucc : ((fun i => groupSlice l i) ∘ Nat.succ) =
            fun i => groupSlice (l.drop 24) i := by
          funext i
          simp only [Function.comp_apply]
          unfold groupSlice
          rw [List.length_drop]
          have hcond : (Nat.succ i < (l.length - 1) / 24) ↔
              (i < (l.length - 24 - 1) / 24) := by omega
          have hd : l.drop (Nat.succ i * 24) = (l.drop 24).drop (i * 24) := by
            rw [List.drop_drop]
            congr 1
            omega
          by_cases hc : i < (l.length - 24 - 1) / 24
          · rw [if_pos (hcond.mpr hc), if_pos hc, hd]
          · rw [if_neg (fun hx => hc (hcond.mp hx)), if_neg hc, hd]
        rw [hzero, hsucc]
        rw [ih (l.drop 24) (by rw [List.length_drop]; omega)
          (by rw [List.length_drop]; omega)]
        exact List.take_append_drop 24 l

theorem range_reverse_eq_map (G : Nat) :
    (List.range G).reverse = (List.range G).map (fun i => G - 1 - i) := by
  conv_lhs => rw [List.range_eq_range']
  rw [List.reverse_range']
  apply List.map_congr_left
  intro i hi
  omega

/-- Claim C6: for a nonempty pattern list, `defsequence` first stops the
running pattern sequence, then defines one LUT entry per pattern `j` with
image-group index `j / 24` and bit position `j % 24` (the index within its
group), then configures playback with the total pattern count and the repeat
count, and finally, in reverse group order (last group first), declares each
image slot (`setbmp`) and uploads its encoded bytes (`bmpload`).  Moreover
the patterns are partitioned into `ceil(N / 24)` encoder slices of at most
24 planes each, the slices concatenating back to the original list. -/
theorem defsequence_spec {α : Type} (enc : List α → List Nat × Nat) (images : List α)
    (exposure : Nat → Nat) (ti : Nat → Bool) (dt : Nat → Nat) (triggerOut : Nat → Nat)
    (rep : Nat) (h1 : 1 ≤ images.length) :
    defsequence enc images exposure ti dt triggerOut rep =
      SeqAction.stopSequence ::
        (((List.range images.length).map (fun j =>
            SeqAction.definePattern j (exposure j) 1 "111" (ti j) (dt j) (triggerOut j)
              (j / 24) (j % 24)))
          ++ [SeqAction.configureLUT images.length rep]
          ++ (((List.range (defsequence_group_count images.length)).reverse.map (fun k =>
              [SeqAction.setBMP k (enc (groupSlice images k)).2,
               SeqAction.bmpLoad (enc (groupSlice images k)).1
                 (enc (groupSlice images k)).2])).flatten))
    ∧ defsequence_group_count images.length = (images.length + 23) / 24
    ∧ (∀ i, i < defsequence_group_count images.length →
        (groupSlice images i).length ≤ 24)
    ∧ ((List.range (defsequence_group_count images.length)).map
        (fun i => groupSlice images i)).flatten = images := by
  refine ⟨?_, by unfold defsequence_group_count; omega,
    fun i _ => groupSlice_length_le images i,
    groupSlice_partition images.length images le_rfl h1⟩
  have hdef : ((List.range (defsequence_group_count images.length)).map (fun i =>
        (List.range' (i * 24)
            ((if i < (images.length - 1) / 24 then (i + 1) * 24 else images.length)
              - i * 24)).map
          (fun j => SeqAction.definePattern j (exposure j) 1 "111" (ti j) (dt j)
            (triggerOut j) i (j - i * 24)))).flatten
      = (List.range images.length).map (fun j =>
          SeqAction.definePattern j (exposure j) 1 "111" (ti j) (dt j) (triggerOut j)
            (j / 24) (j % 24)) := by
    have hcong : ∀ i ∈ List.range (defsequence_group_count images.length),
        (List.range' (i * 24)
            ((if i < (images.length - 1) / 24 then (i + 1) * 24 else images.length)
              - i * 24)).map
          (fun j => SeqAction.definePattern j (exposure j) 1 "111" (ti j) (dt j)
            (triggerOut j) i (j - i * 24))
        = (List.range' (i * 24)
            ((if i < (images.length - 1) / 24 then (i + 1) * 24 else images.length)
              - i * 24)).map
          (fun j => SeqAction.definePattern j (exposure j) 1 "111" (ti j) (dt j)
            (triggerOut j) (j / 24) (j % 24)) := by
      intro i hi
      rw [List.mem_range] at hi
      unfold defsequence_group_count at hi
      apply List.map_congr_left
      intro j hj
      rw [List.mem_range'_1] at hj
      have hji : j / 24 = i ∧ j % 24 = j - i * 24 := by
        rcases Nat.lt_or_ge i ((images.length - 1) / 24) with hlt | hge
        · rw [if_pos hlt] at hj
          omega
        · rw [if_neg (by omega)] at hj
          omega
      rw [hji.1, hji.2]
    rw [List.map_congr_left hcong]
    have hmm2 : (List.range (defsequence_group_count images.length)).map
        (fun i => (List.range' (i * 24)
            ((if i < (images.length - 1) / 24 then (i + 1) * 24 else images.length)
              - i * 24)).map
          (fun j => SeqAction.definePattern j (exposure j) 1 "111" (ti j) (dt j)
            (triggerOut j) (j / 24) (j % 24))) =
        ((List.range (defsequence_group_count images.length)).map
          (fun i => List.range' (i * 24)
            ((if i < (images.length - 1) / 24 then (i + 1) * 24 else images.length)
              - i * 24))).map
          (List.map (fun j => SeqAction.definePattern j (exposure j) 1 "111" (ti j) (dt j)
            (triggerOut j) (j / 24) (j % 24))) := by
      rw [List.map_map]
      exact rfl
    rw [hmm2, ← List.map_flatten]
    unfold defsequence_group_count
    rw [range_group_partition images.length images.length le_rfl h1]
  have hupl : ((List.range (defsequence_group_count images.length)).map (fun i =>
        [SeqAction.setBMP ((images.length - 1) / 24 - i)
            (enc (groupSlice images ((images.length - 1) / 24 - i))).2,
         SeqAction.bmpLoad (enc (groupSlice images ((images.length - 1) / 24 - i))).1
            (enc (groupSlice images ((images.length - 1) / 24 - i))).2])).flatten
      = ((List.range (defsequence_group_count images.length)).reverse.map (fun k =>
          [SeqAction.setBMP k (enc (groupSlice images k)).2,
           SeqAction.bmpLoad (enc (groupSlice images k)).1
             (enc (groupSlice images k)).2])).flatten := by
    congr 1
    rw [range_reverse_eq_map, List.map_map]
    apply List.map_congr_left
    intro i hi
    simp only [Function.comp_apply]
    have he : defsequence_group_count images.length - 1 - i =
        (images.length - 1) / 24 - i := by
      unfold defsequence_group_count
      omega
    rw [he]
  simp only [defsequence, stopsequence_action, configurelut_action]
  rw [hdef, hupl]

/-- Witness for C6 on two patterns and a stub encoder: the full call trace. -/
theorem defsequence_spec_witness :
    defsequence (fun _ => ([1, 2, 3], 3)) [true, false] (fun _ => 7) (fun _ => true)
        (fun _ => 0) (fun _ => 1) 0 =
      [SeqAction.stopSequence,
       SeqAction.definePattern 0 7 1 "111" true 0 1 0 0,
       SeqAction.definePattern 1 7 1 "111" true 0 1 0 1,
       SeqAction.configureLUT 2 0,
       SeqAction.setBMP 0 3,
       SeqAction.bmpLoad [1, 2, 3] 3] := by
  have h := (defsequence_spec (fun _ => (([1, 2, 3] : List Nat), 3)) [true, false]
    (fun _ => 7) (fun _ => true) (fun _ => 0) (fun _ => 1) 0 (by decide)).1
  rw [h]
  rfl
